import Mathlib

/-!
Verification of the edge-discovery / matchup / ranking core of the
nba_prop_analyzer repository, as a shallow embedding in Lean 4.

Conventions used throughout:
* Python floats and ints that take part in arithmetic are embedded as `ℚ`
  (the source never relies on floating-point rounding for the properties
  treated here); identifiers are embedded as `Int` and `String`.
* `statistics.stdev xs` is the square root of the sample variance.  Where the
  source only *compares* the standard deviation against a constant
  (`std > 7.0`, `std < 3`, ...) we embed the equivalent comparison of the
  sample variance against the squared constant (both sides are nonnegative,
  and squaring is monotone on nonnegatives), which keeps every definition
  computable over `ℚ`.  Where the source uses the standard deviation as a
  *value* (the projection range) the embedding is a relation, characterising
  the value `s` by `0 ≤ s ∧ s ^ 2 = sampleVariance values`.
* In-place mutation of `Prop` objects inside the matchup engine is embedded
  by threading the list of props through the computation as an explicit
  store; the engine relation returns both the produced analyses and the
  final state of the props.
* Fields of the source dataclasses that no analysed code path reads
  (timestamps, dates, `supporting_data` diagnostic maps, vegas lines,
  unused box-score columns) are omitted from the embedded structures.
-/

namespace Nba

/-! ## Data model (src/data/models/schemas.py) -/

/-- `PlayerGameLog` (schemas.py).  Box-score integers are embedded in `ℚ`
since every use in the analysed code is arithmetic. -/
structure PlayerGameLog where
  player_id : Int
  game_id : String
  opponent_abbr : String
  is_home : Bool
  minutes : ℚ
  points : ℚ
  rebounds : ℚ
  assists : ℚ
  fg3m : ℚ
  fgm : ℚ
  fga : ℚ
  started : Bool := false
deriving DecidableEq

/-- `PlayerGameLog.pra` property. -/
def PlayerGameLog.pra (g : PlayerGameLog) : ℚ := g.points + g.rebounds + g.assists

/-- `PlayerGameLog.pts_asts` property. -/
def PlayerGameLog.pts_asts (g : PlayerGameLog) : ℚ := g.points + g.assists

/-- `PlayerGameLog.pts_rebs` property. -/
def PlayerGameLog.pts_rebs (g : PlayerGameLog) : ℚ := g.points + g.rebounds

/-- `PlayerGameLog.rebs_asts` property. -/
def PlayerGameLog.rebs_asts (g : PlayerGameLog) : ℚ := g.rebounds + g.assists

/-- The source class `Prop` (schemas.py); renamed because `Prop` is a Lean
keyword.  A `player_id` of `0` embeds Python's falsy "unknown id". -/
structure PropBet where
  player_id : Int
  player_name : String
  team_abbr : String
  game_id : String
  opponent_abbr : String
  prop_type : String
  line : ℚ
  over_odds : Int
  under_odds : Int
  book : String
  is_home : Bool := true
deriving DecidableEq

/-- `Edge` (schemas.py).  `supporting_data` (a heterogeneous diagnostic map)
is omitted; no analysed code path reads it. -/
structure Edge where
  edge_type : String
  description : String
  affected_stats : List String
  strength : ℚ
  benefiting_player_ids : List Int := []
  game_id : Option String := none
  team_abbr : Option String := none
  is_primary : Bool := true
deriving DecidableEq

/-- `Injury` (schemas.py). -/
structure Injury where
  player_id : Int
  player_name : String
  team_abbr : String
  status : String
  injury_type : String
  usage_rate : ℚ := 0
  minutes_per_game : ℚ := 0
  notes : String := ""
deriving DecidableEq

/-- `Game` (schemas.py), restricted to the fields the analysed code reads. -/
structure Game where
  id : String
  home_team_id : Int
  away_team_id : Int
  home_team_abbr : String
  away_team_abbr : String
deriving DecidableEq

/-- `Player` (schemas.py), restricted to the fields the matchup engine sets. -/
structure Player where
  id : Int
  name : String
  team_id : Int
  team_abbr : String
  position : String
deriving DecidableEq

/-- `TeamDefenseStats` (schemas.py), restricted to the fields the matchup
engine copies onto the opponent `Team`. -/
structure TeamDefenseStats where
  team_id : Int
  team_abbr : String
  pts_allowed : ℚ
  reb_allowed : ℚ
  ast_allowed : ℚ
  pts_rank : Int
  reb_rank : Int
  ast_rank : Int
deriving DecidableEq

/-- `Team` (schemas.py), restricted to the fields `_create_prop_analysis`
sets on the opponent object. -/
structure Team where
  id : Int
  abbr : String
  name : String
  opp_ppg : ℚ := 0
  opp_rpg : ℚ := 0
  opp_apg : ℚ := 0
  def_rank_pts : Int := 15
  def_rank_reb : Int := 15
  def_rank_ast : Int := 15
deriving DecidableEq

/-- `ScheduleContext` (schemas.py), restricted; the engine only stores it. -/
structure ScheduleContext where
  team_abbr : String
  opponent_abbr : String
  days_rest : Int := 1
  is_back_to_back : Bool := false
deriving DecidableEq

/-- `PropAnalysis` (schemas.py).  `conditional_splits`, `narrative` and the
timestamp are omitted; no claim-relevant code path reads them. -/
structure PropAnalysis where
  prop : PropBet
  player : Player
  opponent : Team
  game : Game
  edges : List Edge := []
  player_game_logs : List PlayerGameLog := []
  schedule : Option ScheduleContext := none
  projected_low : ℚ := 0
  projected_high : ℚ := 0
  projected_mid : ℚ := 0
  direction : String := "over"
  confidence_score : ℚ := 0
  minutes_security_score : ℚ := 0
  edge_strength_score : ℚ := 0
  sample_quality_score : ℚ := 0
  risk_notes : List String := []
deriving DecidableEq

/-! ## Configuration (src/config/settings.py) -/

/-- The configuration fields the analysed code reads, with the defaults of
`Settings` in settings.py. -/
structure Settings where
  min_odds : Int := -140
  max_picks : Nat := 4
  min_minutes_threshold : ℚ := 24
  min_minutes_last_n : Nat := 5
  min_edge_strength : ℚ := 1/2
deriving DecidableEq

/-- `get_settings()` with no environment overrides. -/
def defaultSettings : Settings := {}

/-! ## Numeric helpers -/

/-- Arithmetic mean, `sum(xs) / len(xs)`.  On `[]` this yields `0` (division
by zero in `ℚ`); every call site in the source guards for nonemptiness or
supplies the Python default separately. -/
def mean (xs : List ℚ) : ℚ := xs.sum / (xs.length : ℚ)

/-- The sample variance underlying `statistics.stdev`:
`Σ (x − mean)² / (n − 1)`.  On lists of length `< 2` (where the source never
calls `stdev`) this yields `0`. -/
def sampleVariance (xs : List ℚ) : ℚ :=
  ((xs.map (fun x => (x - mean xs) ^ 2)).sum) / ((xs.length : ℚ) - 1)

theorem sampleVariance_nonneg (xs : List ℚ) : 0 ≤ sampleVariance xs := by
  rcases xs with _ | ⟨x, xs⟩
  · simp [sampleVariance]
  · rcases xs with _ | ⟨y, ys⟩
    · simp [sampleVariance, mean]
    · apply div_nonneg
      · apply List.sum_nonneg
        intro q hq
        simp only [List.mem_map] at hq
        obtain ⟨z, _, rfl⟩ := hq
        positivity
      · have : (2 : ℚ) ≤ ((x :: y :: ys).length : ℚ) := by
          have : 2 ≤ (x :: y :: ys).length := by
            simp only [List.length_cons]
            omega
          exact_mod_cast this
        linarith

/-! ## Injury edge strength (src/analysis/edge_discovery/injury_edges.py) -/

/-- `_calculate_injury_edge_strength` (injury_edges.py:219-248), the
opponent-benefit strength formula. -/
def calculateInjuryEdgeStrength (injury : Injury) : ℚ :=
  let base0 : ℚ := 0.3
  let base1 := base0 +
    (if injury.usage_rate ≥ 30 then 0.3
     else if injury.usage_rate ≥ 25 then 0.2
     else if injury.usage_rate ≥ 20 then 0.1 else 0)
  let base2 := base1 +
    (if injury.minutes_per_game ≥ 35 then 0.2
     else if injury.minutes_per_game ≥ 30 then 0.1 else 0)
  let base3 := base2 + (if injury.status = "out" then 0.1 else 0)
  min base3 1

/-- `_calculate_teammate_out_strength` (injury_edges.py:251-276), the
teammate-benefit strength formula (lower base 0.2, cap 0.8). -/
def calculateTeammateOutStrength (injury : Injury) : ℚ :=
  let base0 : ℚ := 0.2
  let base1 := base0 +
    (if injury.usage_rate ≥ 30 then 0.25
     else if injury.usage_rate ≥ 25 then 0.15
     else if injury.usage_rate ≥ 20 then 0.1 else 0)
  let base2 := base1 +
    (if injury.minutes_per_game ≥ 35 then 0.15
     else if injury.minutes_per_game ≥ 30 then 0.1 else 0)
  min base2 0.8

/-! ## Pace edges (src/analysis/edge_discovery/scheme_edges.py) -/

/-- `find_pace_edges` (scheme_edges.py:167-238), parametrised by the
team-pace lookup derived from `get_team_stats()`; `none` embeds a missing
row (the game is skipped), and the source's per-row `PACE` column default of
`100.0` is folded into the lookup.  Description strings abbreviate the
source's f-strings; `supporting_data` is omitted as in the rest of the
embedding. -/
def findPaceEdges (paceOf : Int → Option ℚ) (games : List Game) : List Edge :=
  games.foldl (fun acc g =>
    match paceOf g.home_team_id, paceOf g.away_team_id with
    | some homePace, some awayPace =>
      let avgPace := (homePace + awayPace) / 2
      let highPaceEdges :=
        if avgPace ≥ 102 then
          [{ edge_type := "pace",
             description := "high pace environment",
             affected_stats := ["points", "rebounds", "assists", "threes",
               "pts_rebs_asts", "pts_asts", "pts_rebs", "rebs_asts"],
             strength := min (0.3 + (avgPace - 100) * 0.05) 0.6,
             game_id := some g.id,
             team_abbr := some g.home_team_abbr,
             is_primary := false }]
        else []
      let paceDiff := |homePace - awayPace|
      let mismatchEdges :=
        if paceDiff ≥ 3 then
          [{ edge_type := "pace",
             description := "pace mismatch",
             affected_stats := ["points", "rebounds", "assists"],
             strength := 0.3 + paceDiff * 0.05,
             game_id := some g.id,
             team_abbr := some (if homePace > awayPace then g.home_team_abbr
                                else g.away_team_abbr),
             is_primary := false }]
        else []
      acc ++ highPaceEdges ++ mismatchEdges
    | _, _ => acc) []

/-! ## Minutes security gate (src/analysis/validation/minutes_gate.py) -/

/-- `validate_minutes_security` (minutes_gate.py:16-95).  Returns the boolean
gate result together with the risk notes the call appends to
`analysis.risk_notes`.  The source compares `statistics.stdev(minutes_list)`
with `7.0`; since both sides are nonnegative this is equivalent to comparing
the sample variance with `49`, which is what the embedding does to stay in
`ℚ`.  The two risk-note strings abbreviate the source's f-strings (only
their presence matters downstream).  `minutesList.min?` is `some` on every
path that reads it (the recent window is nonempty there), so the `getD 0`
default is never taken. -/
def validateMinutesSecurity (st : Settings) (a : PropAnalysis) : Bool × List String :=
  if a.player_game_logs = [] then (false, [])
  else if a.player_game_logs.length < st.min_minutes_last_n then (false, [])
  else
    let logs := a.player_game_logs
    let recentLogs := logs.take st.min_minutes_last_n
    let avgMinutes := mean (recentLogs.map (fun g => g.minutes))
    if avgMinutes < st.min_minutes_threshold then (false, [])
    else
      let minutesList := recentLogs.map (fun g => g.minutes)
      if 1 < minutesList.length ∧ 49 < sampleVariance minutesList then (false, [])
      else
        let dnpCount := (recentLogs.filter (fun g => g.minutes = 0)).length
        if 0 < dnpCount then (false, [])
        else
          let minMinutes := (minutesList.min?).getD 0
          let notes1 :=
            if minMinutes < 15 ∧ 25 < avgMinutes then ["low_min_game"] else []
          let notes2 :=
            if 10 ≤ logs.length ∧
                mean ((logs.take 5).map (fun g => g.minutes)) <
                  mean (((logs.drop 5).take 5).map (fun g => g.minutes)) - 5
            then ["minutes_trending_down"] else []
          (true, notes1 ++ notes2)

/-- `calculate_minutes_security_score` (minutes_gate.py:98-157).  The
standard-deviation tiers `std < 3` / `std < 5` / `std > 8` are embedded as
the equivalent variance tiers `var < 9` / `var < 25` / `var > 64`. -/
def calculateMinutesSecurityScore (st : Settings) (a : PropAnalysis) : ℚ :=
  if a.player_game_logs = [] ∨ a.player_game_logs.length < 3 then 0
  else
    let logs := a.player_game_logs
    let recentLogs := logs.take (min 10 logs.length)
    let score0 : ℚ := 0.5
    let avgMinutes := mean (recentLogs.map (fun g => g.minutes))
    let score1 := score0 +
      (if avgMinutes ≥ 35 then 0.2
       else if avgMinutes ≥ 30 then 0.15
       else if avgMinutes ≥ 28 then 0.1
       else if avgMinutes ≥ st.min_minutes_threshold then 0.05
       else -0.1)
    let minutesList := recentLogs.map (fun g => g.minutes)
    let score2 := score1 +
      (if 1 < minutesList.length then
        (if sampleVariance minutesList < 9 then 0.2
         else if sampleVariance minutesList < 25 then 0.1
         else if 64 < sampleVariance minutesList then -0.1
         else 0)
       else 0)
    let starts := (recentLogs.filter (fun g => g.started)).length
    let startRate := (starts : ℚ) / (recentLogs.length : ℚ)
    let score3 := score2 +
      (if startRate ≥ 0.8 then 0.1
       else if startRate ≥ 0.5 then 0.05
       else if startRate = 0 then -0.05
       else 0)
    let dnps := (recentLogs.filter (fun g => g.minutes = 0)).length
    let score4 := score3 + (if dnps = 0 then 0.05 else -0.1 * (dnps : ℚ))
    max 0 (min 1 score4)

/-! ## Weighted averages (src/data/collectors/nba_stats.py) -/

/-- The per-window value extraction of `calculate_weighted_averages`
(nba_stats.py:419-493): for a known stat the subset's values, for an
unknown stat the literal `[0]` the source assigns. -/
def cwValues (stat : String) (subset : List PlayerGameLog) : List ℚ :=
  if stat = "points" then subset.map (fun g => g.points)
  else if stat = "rebounds" then subset.map (fun g => g.rebounds)
  else if stat = "assists" then subset.map (fun g => g.assists)
  else if stat = "fg3m" ∨ stat = "threes" then subset.map (fun g => g.fg3m)
  else if stat = "pra" ∨ stat = "pts_rebs_asts" then subset.map (fun g => g.pra)
  else if stat = "pts_asts" then subset.map (fun g => g.pts_asts)
  else if stat = "pts_rebs" then subset.map (fun g => g.pts_rebs)
  else if stat = "rebs_asts" then subset.map (fun g => g.rebs_asts)
  else if stat = "minutes" then subset.map (fun g => g.minutes)
  else [0]

/-- The result dictionary of `calculate_weighted_averages(logs, stat,
[5, 10, 15])`.  With the windows the projection always passes, the keys
`last_5`, `last_10`, `last_15` and `season` are all present whenever
`game_logs` is nonempty, which the projection guarantees before calling;
the all-zero value for empty logs is never read. -/
structure WeightedAverages where
  last5 : ℚ
  last10 : ℚ
  last15 : ℚ
  season : ℚ
deriving DecidableEq

/-- `calculate_weighted_averages` (nba_stats.py:419-493) at the windows
`[5, 10, 15]` used by the projection. -/
def calculateWeightedAverages (logs : List PlayerGameLog) (stat : String) :
    WeightedAverages :=
  if logs = [] then { last5 := 0, last10 := 0, last15 := 0, season := 0 }
  else
    let windowAvg := fun (w : Nat) =>
      let subset := logs.take w
      if subset = [] then 0 else mean (cwValues stat subset)
    { last5 := windowAvg 5, last10 := windowAvg 10, last15 := windowAvg 15,
      season := mean (cwValues stat logs) }

/-! ## Projection range (src/analysis/matchup_engine.py) -/

/-- `_get_stat_values` (matchup_engine.py:329-349): unknown prop types
contribute no values. -/
def getStatValues (logs : List PlayerGameLog) (prop_type : String) : List ℚ :=
  logs.filterMap (fun g =>
    if prop_type = "points" then some g.points
    else if prop_type = "rebounds" then some g.rebounds
    else if prop_type = "assists" then some g.assists
    else if prop_type = "threes" ∨ prop_type = "fg3m" then some g.fg3m
    else if prop_type = "pra" ∨ prop_type = "pts_rebs_asts" then some g.pra
    else if prop_type = "pts_asts" then some g.pts_asts
    else if prop_type = "pts_rebs" then some g.pts_rebs
    else if prop_type = "rebs_asts" then some g.rebs_asts
    else none)

/-- The deterministic part of `_calculate_projection_range`
(matchup_engine.py:274-326): weighted baseline plus the clamped edge
adjustment. -/
def projectionCenter (p : PropBet) (logs : List PlayerGameLog)
    (edges : List Edge) : ℚ :=
  let averages := calculateWeightedAverages logs p.prop_type
  let baseline := averages.last5 * 0.5 + averages.last10 * 0.3 +
    averages.season * 0.2
  let edgeAdjustment := edges.foldl
    (fun s e => if e.strength > 0.5 then s + (e.strength - 0.5) * 2 else s) 0
  let clamped := min (max edgeAdjustment (-2)) 4
  baseline + clamped

/-- The standard deviation `_calculate_projection_range` spreads the range
by: `statistics.stdev` of the trailing-10 stat values when at least 5 logs
and at least 2 values exist, else the default `2.0`.  The square root is
characterised by its square to stay in `ℚ`. -/
def isProjStd (p : PropBet) (logs : List PlayerGameLog) (s : ℚ) : Prop :=
  if 5 ≤ logs.length then
    if 2 ≤ (getStatValues (logs.take 10) p.prop_type).length then
      0 ≤ s ∧ s ^ 2 = sampleVariance (getStatValues (logs.take 10) p.prop_type)
    else s = 2
  else s = 2

/-- `_calculate_projection_range` (matchup_engine.py:274-326) as a relation
on its result (see `isProjStd` for why the spread is relational). -/
def projRangeRel (p : PropBet) (logs : List PlayerGameLog) (edges : List Edge)
    (r : ℚ × ℚ) : Prop :=
  if logs = [] then r = (p.line - 2, p.line + 2)
  else ∃ s, isProjStd p logs s ∧
    r = (projectionCenter p logs edges - s, projectionCenter p logs edges + s)

/-- `_determine_direction` (matchup_engine.py:352-372). -/
def determineDirection (p : PropBet) (projectedLow projectedHigh : ℚ) : String :=
  if (projectedLow + projectedHigh) / 2 > p.line then "over" else "under"

/-! ## Edge-to-prop category matching (src/analysis/matchup_engine.py) -/

/-- The loop body of `_find_edges_for_prop` (matchup_engine.py:135-171):
direct stat-type membership appends unconditionally; each compound branch
appends when a component matches and the edge is not already in the
accumulator. -/
def findEdgesStep (p : PropBet) (matching : List Edge) (e : Edge) : List Edge :=
  let matching1 :=
    if p.prop_type ∈ e.affected_stats then matching ++ [e] else matching
  if p.prop_type = "pts_rebs_asts" then
    if (["points", "rebounds", "assists"].any (fun s => s ∈ e.affected_stats)) ∧
        e ∉ matching1
    then matching1 ++ [e] else matching1
  else if p.prop_type = "pts_asts" then
    if (["points", "assists"].any (fun s => s ∈ e.affected_stats)) ∧
        e ∉ matching1
    then matching1 ++ [e] else matching1
  else if p.prop_type = "pts_rebs" then
    if (["points", "rebounds"].any (fun s => s ∈ e.affected_stats)) ∧
        e ∉ matching1
    then matching1 ++ [e] else matching1
  else if p.prop_type = "rebs_asts" then
    if (["rebounds", "assists"].any (fun s => s ∈ e.affected_stats)) ∧
        e ∉ matching1
    then matching1 ++ [e] else matching1
  else matching1

/-- `_find_edges_for_prop` (matchup_engine.py:135-171). -/
def findEdgesForProp (p : PropBet) (edges : List Edge) : List Edge :=
  edges.foldl (findEdgesStep p) []

/-- The component simple categories of a compound category, per the spec's
compound-category expansion policy (simple categories have none). -/
def componentCategories (prop_type : String) : List String :=
  if prop_type = "pts_rebs_asts" then ["points", "rebounds", "assists"]
  else if prop_type = "pts_asts" then ["points", "assists"]
  else if prop_type = "pts_rebs" then ["points", "rebounds"]
  else if prop_type = "rebs_asts" then ["rebounds", "assists"]
  else []

/-- The spec-side matching predicate: an edge's affected-category set
intersects the prop's category, a compound category being satisfied by any
of its component simple categories. -/
def specCategoryMatch (prop_type : String) (stats : List String) : Prop :=
  prop_type ∈ stats ∨ ∃ c ∈ componentCategories prop_type, c ∈ stats

instance (prop_type : String) (stats : List String) :
    Decidable (specCategoryMatch prop_type stats) := by
  unfold specCategoryMatch
  infer_instance

/-! ## The matchup engine (src/analysis/matchup_engine.py) -/

/-- The external collaborators `match_edges_to_props` and
`_create_prop_analysis` call out to (league stats, `nba_api` static player
lookup, game logs, team defense, `TEAM_IDS`, schedule context), embedded as
pure lookups. -/
structure EngineEnv where
  playerNameToTeam : String → Option String
  staticPlayerIdByName : String → Option Int
  getPlayerGameLogs : Int → List PlayerGameLog
  getTeamDefensiveStats : Int → Option TeamDefenseStats
  teamIds : String → Option Int
  getScheduleContext : String → String → Option ScheduleContext

/-- The prop enrichment in the grouping loop of `match_edges_to_props`
(matchup_engine.py:67-74): a team of `"UNK"` is backfilled from the league
player-to-team lookup, in place. -/
def enrichPropTeam (lookup : String → Option String) (p : PropBet) : PropBet :=
  if p.team_abbr = "UNK" then
    match lookup p.player_name with
    | some t => { p with team_abbr := t }
    | none => p
  else p

/-- The `player_id` backfill in `_create_prop_analysis`
(matchup_engine.py:222-232): a falsy id is resolved by name from the static
player table and cached on the prop, in place. -/
def resolvePlayerId (env : EngineEnv) (p : PropBet) : PropBet :=
  if p.player_id = 0 then
    match env.staticPlayerIdByName p.player_name with
    | some pid => { p with player_id := pid }
    | none => p
  else p

/-- The opponent `Team` object `_create_prop_analysis` builds
(matchup_engine.py:201-218). -/
def buildOpponent (env : EngineEnv) (oppAbbr : String) : Team :=
  let oppTeamId := env.teamIds oppAbbr
  let oppDefense :=
    match oppTeamId with
    | some tid => if tid = 0 then none else env.getTeamDefensiveStats tid
    | none => none
  let base : Team := { id := oppTeamId.getD 0, abbr := oppAbbr, name := oppAbbr }
  match oppDefense with
  | some d =>
    { base with
      opp_ppg := d.pts_allowed
      opp_rpg := d.reb_allowed
      opp_apg := d.ast_allowed
      def_rank_pts := d.pts_rank
      def_rank_reb := d.reb_rank
      def_rank_ast := d.ast_rank }
  | none => base

/-- Everything `_create_prop_analysis` computes deterministically before the
projection: the updated prop and the analysis ingredients. -/
structure Candidate where
  prop : PropBet
  player : Player
  opponent : Team
  game : Game
  edges : List Edge
  logs : List PlayerGameLog
  schedule : Option ScheduleContext
deriving DecidableEq

/-- The deterministic part of `_create_prop_analysis`
(matchup_engine.py:174-265): resolve the player id, fetch game logs (empty
when the id is still falsy), build opponent and schedule context. -/
def mkCandidate (env : EngineEnv) (game : Game) (oppAbbr : String)
    (matchingEdges : List Edge) (p0 : PropBet) : PropBet × Candidate :=
  let p := resolvePlayerId env p0
  let player : Player :=
    { id := p.player_id, name := p.player_name, team_id := 0,
      team_abbr := p.team_abbr, position := "" }
  let logs := if p.player_id = 0 then [] else env.getPlayerGameLogs p.player_id
  (p, { prop := p, player := player, opponent := buildOpponent env oppAbbr,
        game := game, edges := matchingEdges, logs := logs,
        schedule := env.getScheduleContext p.team_abbr oppAbbr })

/-- Insertion-ordered grouping, as a Python `dict` accumulated in a loop:
keys in first-occurrence order, values in encounter order. -/
def insertGrouped {κ α : Type} [DecidableEq κ] (k : κ) (x : α) :
    List (κ × List α) → List (κ × List α)
  | [] => [(k, [x])]
  | (k0, ys) :: rest =>
    if k = k0 then (k0, ys ++ [x]) :: rest
    else (k0, ys) :: insertGrouped k x rest

/-- Group a list by a key, preserving insertion order (Python `dict`
semantics). -/
def groupByKey {κ α : Type} [DecidableEq κ] (key : α → κ) (xs : List α) :
    List (κ × List α) :=
  xs.foldl (fun acc x => insertGrouped (key x) x acc) []

/-- `_find_game_for_team` (matchup_engine.py:119-132) combined with the
grouping key: the key is the edge's optional `team_abbr`, and a game matches
when either side equals it (a `none` key matches no game, as in Python where
`str == None` is false). -/
def findGameForTeam (teamKey : Option String) (games : List Game) :
    Option Game :=
  games.find? (fun g =>
    some g.home_team_abbr = teamKey ∨ some g.away_team_abbr = teamKey)

/-- The innermost loop body of `match_edges_to_props`
(matchup_engine.py:100-113): look up the prop at `idx` in the store, match
edges, and on a nonempty match append the candidate and write the updated
prop back. -/
def processIdx (env : EngineEnv) (teamEdges : List Edge) (game : Game)
    (oppAbbr : String) (acc : List Candidate × List PropBet) (idx : Nat) :
    List Candidate × List PropBet :=
  match acc.2.get? idx with
  | none => acc
  | some p =>
    let m := findEdgesForProp p teamEdges
    if m = [] then acc
    else
      let pc := mkCandidate env game oppAbbr m p
      (acc.1 ++ [pc.2], acc.2.set idx pc.1)

/-- The per-team loop body of `match_edges_to_props`
(matchup_engine.py:82-113): resolve the team's game and opponent, select the
player groups any of whose props carry this team, then process every prop of
those players. -/
def processTeam (env : EngineEnv) (games : List Game)
    (groups : List (String × List Nat)) (acc : List Candidate × List PropBet)
    (tk : Option String × List Edge) : List Candidate × List PropBet :=
  match findGameForTeam tk.1 games with
  | none => acc
  | some game =>
    let oppAbbr :=
      if some game.home_team_abbr = tk.1 then game.away_team_abbr
      else game.home_team_abbr
    let qualifying := groups.filter (fun ng => ng.2.any (fun i =>
      match acc.2.get? i with
      | some p => some p.team_abbr = tk.1
      | none => false))
    qualifying.foldl
      (fun acc2 ng => ng.2.foldl (processIdx env tk.2 game oppAbbr) acc2) acc

/-- The deterministic skeleton of `match_edges_to_props`
(matchup_engine.py:24-116): enrich and group the props (by player name, as
indices into the threaded prop store), group the edges by benefiting team,
and run the nested loops.  Returns the produced candidates in order together
with the final state of the props. -/
def matchSkeleton (env : EngineEnv) (edges : List Edge) (props : List PropBet)
    (games : List Game) : List Candidate × List PropBet :=
  let enriched := props.map (enrichPropTeam env.playerNameToTeam)
  let groups := (groupByKey (fun ip => ip.2.player_name) enriched.enum).map
    (fun g => (g.1, g.2.map (fun ip => ip.1)))
  let edgesByTeam := groupByKey (fun e => e.team_abbr) edges
  edgesByTeam.foldl (processTeam env games groups) ([], enriched)

/-- The `PropAnalysis` literal of `_create_prop_analysis`
(matchup_engine.py:250-263), given the projection range. -/
def analysisOfCandidate (c : Candidate) (lo hi : ℚ) : PropAnalysis :=
  { prop := c.prop, player := c.player, opponent := c.opponent, game := c.game,
    edges := c.edges, player_game_logs := c.logs, schedule := c.schedule,
    projected_low := lo, projected_high := hi, projected_mid := (lo + hi) / 2,
    direction := determineDirection c.prop lo hi,
    edge_strength_score :=
      if c.edges = [] then 0 else mean (c.edges.map (fun e => e.strength)) }

/-- A candidate yields an analysis through the (relational) projection. -/
def candidateRel (c : Candidate) (a : PropAnalysis) : Prop :=
  ∃ lo hi, projRangeRel c.prop c.logs c.edges (lo, hi) ∧
    a = analysisOfCandidate c lo hi

/-- `match_edges_to_props` (matchup_engine.py:24-116) as a relation between
its inputs and (produced analyses, final prop states). -/
def matchEdgesToPropsRel (env : EngineEnv) (edges : List Edge)
    (props : List PropBet) (games : List Game)
    (result : List PropAnalysis × List PropBet) : Prop :=
  List.Forall₂ candidateRel (matchSkeleton env edges props games).1 result.1 ∧
  result.2 = (matchSkeleton env edges props games).2

/-! ## Engine lemmas -/

/-- A fold preserves any invariant its step preserves. -/
theorem foldl_preserves {σ α : Type} (P : σ → Prop) (f : σ → α → σ)
    (hstep : ∀ s x, P s → P (f s x)) :
    ∀ (l : List α) (s : σ), P s → P (l.foldl f s) := by
  intro l
  induction l with
  | nil => intro s hs; exact hs
  | cons x xs ih => intro s hs; exact ih _ (hstep s x hs)

/-- Right-hand members of a `Forall₂` come from related left-hand members. -/
theorem forallTwo_mem_right {α β : Type} {R : α → β → Prop} :
    ∀ {l1 : List α} {l2 : List β}, List.Forall₂ R l1 l2 →
      ∀ {b : β}, b ∈ l2 → ∃ a ∈ l1, R a b := by
  intro l1 l2 h
  induction h with
  | nil => intro b hb; cases hb
  | @cons a b l1 l2 hab _ ih =>
    intro b0 hb0
    rcases List.mem_cons.mp hb0 with hb0 | hb0
    · exact ⟨a, List.mem_cons_self _ _, hb0 ▸ hab⟩
    · obtain ⟨a0, ha0, hr⟩ := ih hb0
      exact ⟨a0, List.mem_cons_of_mem _ ha0, hr⟩

/-- Setting an index to a value that stays related preserves `Forall₂`. -/
theorem forallTwo_set_of_rel {α β : Type} {R : α → β → Prop} :
    ∀ {l1 : List α} {l2 : List β}, List.Forall₂ R l1 l2 →
      ∀ {i : Nat} {b b' : β}, l2.get? i = some b → (∀ a, R a b → R a b') →
        List.Forall₂ R l1 (l2.set i b') := by
  intro l1 l2 h
  induction h with
  | nil => intro i b b' hget _; cases hget
  | @cons a b0 l1 l2 hab htail ih =>
    intro i b b' hget hpres
    cases i with
    | zero =>
      simp only [List.get?] at hget
      cases hget
      exact List.Forall₂.cons (hpres a hab) htail
    | succ j =>
      simp only [List.get?] at hget
      exact List.Forall₂.cons hab (ih hget hpres)

/-- `findEdgesStep` in closed form: it appends `e` exactly when the direct
stat-type check fires, or a compound component matches and `e` is not
already in the accumulator. -/
theorem findEdgesStep_eq (p : PropBet) (m : List Edge) (e : Edge) :
    findEdgesStep p m e =
      if p.prop_type ∈ e.affected_stats then m ++ [e]
      else if (∃ c ∈ componentCategories p.prop_type, c ∈ e.affected_stats)
          ∧ e ∉ m then m ++ [e]
      else m := by
  unfold findEdgesStep componentCategories
  by_cases hd : p.prop_type ∈ e.affected_stats
  · simp only [if_pos hd]
    split_ifs with h1 h2 h3 h4 h5 h6 h7 h8 <;>
      first
        | rfl
        | (exfalso; revert h2; simp_all)
        | (exfalso; revert h4; simp_all)
        | (exfalso; revert h6; simp_all)
        | (exfalso; revert h8; simp_all)
  · simp only [if_neg hd]
    split_ifs with h1 h2 h3 h4 h5 h6 h7 h8 <;> simp_all

/-- Membership in the matched-edge list for a prop: exactly the input edges
whose affected categories intersect the prop's category under the
compound-category policy. -/
theorem findEdges_mem_iff (p : PropBet) :
    ∀ (es : List Edge) (m : List Edge) (x : Edge),
      x ∈ es.foldl (findEdgesStep p) m ↔
        x ∈ m ∨ (x ∈ es ∧ specCategoryMatch p.prop_type x.affected_stats) := by
  intro es
  induction es with
  | nil => intro m x; simp
  | cons e es ih =>
    intro m x
    rw [List.foldl_cons, ih, findEdgesStep_eq]
    unfold specCategoryMatch
    split_ifs with h1 h2
    · constructor
      · rintro (hx | hx)
        · rcases List.mem_append.mp hx with hx | hx
          · exact Or.inl hx
          · rcases List.mem_singleton.mp hx with rfl
            exact Or.inr ⟨List.mem_cons_self _ _, Or.inl h1⟩
        · exact Or.inr ⟨List.mem_cons_of_mem _ hx.1, hx.2⟩
      · rintro (hx | ⟨hx, hs⟩)
        · exact Or.inl (List.mem_append.mpr (Or.inl hx))
        · rcases List.mem_cons.mp hx with rfl | hx
          · exact Or.inl (List.mem_append.mpr (Or.inr (List.mem_singleton.mpr rfl)))
          · exact Or.inr ⟨hx, hs⟩
    · constructor
      · rintro (hx | hx)
        · rcases List.mem_append.mp hx with hx | hx
          · exact Or.inl hx
          · rcases List.mem_singleton.mp hx with rfl
            exact Or.inr ⟨List.mem_cons_self _ _, Or.inr h2.1⟩
        · exact Or.inr ⟨List.mem_cons_of_mem _ hx.1, hx.2⟩
      · rintro (hx | ⟨hx, hs⟩)
        · exact Or.inl (List.mem_append.mpr (Or.inl hx))
        · rcases List.mem_cons.mp hx with rfl | hx
          · exact Or.inl (List.mem_append.mpr (Or.inr (List.mem_singleton.mpr rfl)))
          · exact Or.inr ⟨hx, hs⟩
    · constructor
      · rintro (hx | hx)
        · exact Or.inl hx
        · exact Or.inr ⟨List.mem_cons_of_mem _ hx.1, hx.2⟩
      · rintro (hx | ⟨hx, hs⟩)
        · exact Or.inl hx
        · rcases List.mem_cons.mp hx with rfl | hx
          · rcases hs with hs | hs
            · exact absurd hs h1
            · rcases Classical.em (x ∈ m) with hm | hm
              · exact Or.inl hm
              · exact absurd ⟨hs, hm⟩ h2
          · exact Or.inr ⟨hx, hs⟩

/-- The matched-edge list is nonempty iff some input edge matches the prop's
category. -/
theorem findEdges_ne_nil_iff (p : PropBet) (es : List Edge) :
    findEdgesForProp p es ≠ [] ↔
      ∃ e ∈ es, specCategoryMatch p.prop_type e.affected_stats := by
  unfold findEdgesForProp
  constructor
  · intro h
    obtain ⟨x, hx⟩ := List.exists_mem_of_ne_nil _ h
    rcases (findEdges_mem_iff p es [] x).mp hx with hx | hx
    · cases hx
    · exact ⟨x, hx.1, hx.2⟩
  · rintro ⟨e, he, hs⟩
    intro hnil
    have : e ∈ es.foldl (findEdgesStep p) [] :=
      (findEdges_mem_iff p es [] e).mpr (Or.inr ⟨he, hs⟩)
    rw [hnil] at this
    cases this

/-- Resolving the player id never changes the prop type. -/
theorem resolvePlayerId_prop_type (env : EngineEnv) (p : PropBet) :
    (resolvePlayerId env p).prop_type = p.prop_type := by
  unfold resolvePlayerId
  split_ifs with h
  · cases env.staticPlayerIdByName p.player_name <;> rfl
  · rfl

/-- A produced candidate has a nonempty matched-edge list, all of whose
edges intersect its prop's category under the compound policy. -/
def soundCandidate (c : Candidate) : Prop :=
  c.edges ≠ [] ∧
  ∀ e ∈ c.edges, specCategoryMatch c.prop.prop_type e.affected_stats

/-- Invariants preserved by every `processIdx` step are preserved by the
whole skeleton. -/
theorem matchSkeleton_preserves (P : List Candidate × List PropBet → Prop)
    (env : EngineEnv) (edges : List Edge) (props : List PropBet)
    (games : List Game)
    (hidx : ∀ (s : List Candidate × List PropBet) (teamEdges : List Edge)
      (game : Game) (oppAbbr : String) (idx : Nat),
      P s → P (processIdx env teamEdges game oppAbbr s idx))
    (hinit : P ([], props.map (enrichPropTeam env.playerNameToTeam))) :
    P (matchSkeleton env edges props games) := by
  simp only [matchSkeleton]
  have hteam : ∀ (groups : List (String × List Nat))
      (s : List Candidate × List PropBet) (tk : Option String × List Edge),
      P s → P (processTeam env games groups s tk) := by
    intro groups s tk hs
    unfold processTeam
    cases hfind : findGameForTeam tk.1 games with
    | none => exact hs
    | some game =>
      dsimp only
      refine foldl_preserves P _ ?_ _ s hs
      intro acc2 ng hacc
      exact foldl_preserves P _ (fun s3 i h => hidx s3 _ _ _ i h) ng.2 acc2 hacc
  exact foldl_preserves P _ (fun s tk h => hteam _ s tk h) _ _ hinit

/-- Every candidate the skeleton emits is sound. -/
theorem matchSkeleton_sound (env : EngineEnv) (edges : List Edge)
    (props : List PropBet) (games : List Game) :
    ∀ c ∈ (matchSkeleton env edges props games).1, soundCandidate c := by
  refine matchSkeleton_preserves (fun acc => ∀ c ∈ acc.1, soundCandidate c)
    env edges props games ?_ ?_
  · intro s te game oppAbbr idx hs
    unfold processIdx
    cases hget : s.2.get? idx with
    | none => exact hs
    | some p =>
      dsimp only
      by_cases hm : findEdgesForProp p te = []
      · rw [if_pos hm]; exact hs
      · rw [if_neg hm]
        intro c hc
        rcases List.mem_append.mp hc with hc | hc
        · exact hs c hc
        · rcases List.mem_singleton.mp hc with rfl
          constructor
          · exact hm
          · intro e he
            have hspec := (findEdges_mem_iff p te [] e).mp he
            rcases hspec with hspec | hspec
            · cases hspec
            · have hpt : (mkCandidate env game oppAbbr
                  (findEdgesForProp p te) p).2.prop.prop_type
                  = p.prop_type := resolvePlayerId_prop_type env p
              rw [hpt]
              exact hspec.2
  · intro c hc
    cases hc

/-- How the matchup engine may rewrite a prop in place: only a `team_abbr`
backfill of `"UNK"` (matchup_engine.py:70-71) and a `player_id` cache of a
falsy id (matchup_engine.py:224-230); every other field is untouched. -/
def propEvolved (orig fin : PropBet) : Prop :=
  fin.player_name = orig.player_name ∧
  fin.game_id = orig.game_id ∧
  fin.opponent_abbr = orig.opponent_abbr ∧
  fin.prop_type = orig.prop_type ∧
  fin.line = orig.line ∧
  fin.over_odds = orig.over_odds ∧
  fin.under_odds = orig.under_odds ∧
  fin.book = orig.book ∧
  fin.is_home = orig.is_home ∧
  (fin.team_abbr = orig.team_abbr ∨ orig.team_abbr = "UNK") ∧
  (fin.player_id = orig.player_id ∨ orig.player_id = 0)

/-- Team enrichment only backfills an `"UNK"` team. -/
theorem propEvolved_enrich (lookup : String → Option String) (p : PropBet) :
    propEvolved p (enrichPropTeam lookup p) := by
  unfold enrichPropTeam propEvolved
  split_ifs with h
  · cases lookup p.player_name <;> simp [h]
  · simp

/-- Resolving the player id keeps a prop evolved from its original. -/
theorem propEvolved_resolve (env : EngineEnv) {o p : PropBet}
    (h : propEvolved o p) : propEvolved o (resolvePlayerId env p) := by
  unfold resolvePlayerId
  split_ifs with hid
  · cases hlook : env.staticPlayerIdByName p.player_name with
    | none => exact h
    | some pid =>
      obtain ⟨h1, h2, h3, h4, h5, h6, h7, h8, h9, h10, h11⟩ := h
      refine ⟨h1, h2, h3, h4, h5, h6, h7, h8, h9, h10, ?_⟩
      rcases h11 with h11 | h11
      · exact Or.inr (by rw [← h11, hid])
      · exact Or.inr h11
  · exact h

/-- The final prop store of the skeleton is the input props with at most the
two in-place backfills applied. -/
theorem matchSkeleton_evolves (env : EngineEnv) (edges : List Edge)
    (props : List PropBet) (games : List Game) :
    List.Forall₂ propEvolved props (matchSkeleton env edges props games).2 := by
  refine matchSkeleton_preserves
    (fun acc => List.Forall₂ propEvolved props acc.2)
    env edges props games ?_ ?_
  · intro s te game oppAbbr idx hs
    unfold processIdx
    cases hget : s.2.get? idx with
    | none => exact hs
    | some p =>
      dsimp only
      by_cases hm : findEdgesForProp p te = []
      · rw [if_pos hm]; exact hs
      · rw [if_neg hm]
        exact forallTwo_set_of_rel hs hget
          (fun a ha => propEvolved_resolve env ha)
  · dsimp only
    rw [List.forall₂_map_right_iff, List.forall₂_same]
    intro x _
    exact propEvolved_enrich env.playerNameToTeam x

/-! ## Ranking, selection and diversification (src/output/ranker.py, src/main.py) -/

/-- The loop body state of `diversify_picks` (ranker.py:276-308): the
already-selected list is built front-to-back while the per-player and
per-game counters (`player_counts`, `game_counts`, embedded as total
functions defaulting to 0 like `dict.get(key, 0)`) track admitted entries. -/
def diversifyAux (maxPerPlayer maxPerGame : Nat) :
    List PropAnalysis → (String → Nat) → (String → Nat) → List PropAnalysis
  | [], _, _ => []
  | a :: rest, playerCounts, gameCounts =>
    let pl := a.player.name
    let gm := a.game.id
    if playerCounts pl ≥ maxPerPlayer then
      diversifyAux maxPerPlayer maxPerGame rest playerCounts gameCounts
    else if gameCounts gm ≥ maxPerGame then
      diversifyAux maxPerPlayer maxPerGame rest playerCounts gameCounts
    else
      a :: diversifyAux maxPerPlayer maxPerGame rest
        (Function.update playerCounts pl (playerCounts pl + 1))
        (Function.update gameCounts gm (gameCounts gm + 1))

/-- `diversify_picks` (ranker.py:276-308); the source's parameter defaults
are `max_per_player=1`, `max_per_game=2`. -/
def diversifyPicks (analyses : List PropAnalysis)
    (maxPerPlayer maxPerGame : Nat) : List PropAnalysis :=
  diversifyAux maxPerPlayer maxPerGame analyses (fun _ => 0) (fun _ => 0)

/-- `select_top_picks` (ranker.py:244-273); `maxPicks = none` embeds the
Python `max_picks=None` default, replaced by `settings.max_picks`. -/
def selectTopPicks (st : Settings) (analyses : List PropAnalysis)
    (maxPicks : Option Nat) : List PropAnalysis :=
  let mp := maxPicks.getD st.max_picks
  let qualityPicks := analyses.filter (fun a => a.confidence_score ≥ 0.4)
  qualityPicks.take mp

/-- The selection stage of `run_analysis` (main.py:169-175): diversify the
full ranked list (with the source's default caps 1 and 2), then select the
top picks with `settings.max_picks`. -/
def runSelection (st : Settings) (ranked : List PropAnalysis) : List PropAnalysis :=
  selectTopPicks st (diversifyPicks ranked 1 2) (some st.max_picks)

/-! ## Shared concrete fixtures used by witnesses and examples -/

/-- A concrete player for examples. -/
def exPlayer : Player :=
  { id := 7, name := "P One", team_id := 2, team_abbr := "BOS", position := "G" }

/-- A concrete opponent team for examples. -/
def exTeam : Team := { id := 3, abbr := "NYK", name := "NYK" }

/-- A concrete game for examples. -/
def exGame : Game :=
  { id := "G1", home_team_id := 2, away_team_id := 3,
    home_team_abbr := "BOS", away_team_abbr := "NYK" }

/-- A concrete points prop for examples. -/
def exPropPoints : PropBet :=
  { player_id := 7, player_name := "P One", team_abbr := "BOS", game_id := "G1",
    opponent_abbr := "NYK", prop_type := "points", line := 25,
    over_odds := -110, under_odds := -110, book := "FanDuel" }

/-- A game log with the given minutes (all box-score stats zero). -/
def mkLog (m : ℚ) : PlayerGameLog :=
  { player_id := 7, game_id := "G0", opponent_abbr := "NYK", is_home := true,
    minutes := m, points := 0, rebounds := 0, assists := 0, fg3m := 0,
    fgm := 0, fga := 0 }

/-- An analysis whose game logs have the given recent minutes
(most recent first). -/
def mkMinutesAnalysis (ms : List ℚ) : PropAnalysis :=
  { prop := exPropPoints, player := exPlayer, opponent := exTeam, game := exGame,
    player_game_logs := ms.map mkLog }

/-- An already-ranked analysis with the given player, game and confidence. -/
def mkRankedAnalysis (playerName gameId : String) (conf : ℚ) : PropAnalysis :=
  { prop := exPropPoints, player := { exPlayer with name := playerName },
    opponent := exTeam, game := { exGame with id := gameId },
    confidence_score := conf }

/-- The diversification pass only ever skips entries, so its output is a
subsequence of its input (rank order preserved). -/
theorem diversifyAux_sublist (mp mg : Nat) :
    ∀ (l : List PropAnalysis) (pc gc : String → Nat),
      (diversifyAux mp mg l pc gc).Sublist l := by
  intro l
  induction l with
  | nil => intro pc gc; simp [diversifyAux]
  | cons a rest ih =>
    intro pc gc
    simp only [diversifyAux]
    split_ifs with h1 h2
    · exact (ih _ _).cons a
    · exact (ih _ _).cons a
    · exact (ih _ _).cons₂ a

/-- Counter invariant for the per-player cap. -/
theorem diversifyAux_player_count (mp mg : Nat) (p : String) :
    ∀ (l : List PropAnalysis) (pc gc : String → Nat), pc p ≤ mp →
      ((diversifyAux mp mg l pc gc).filter
          (fun a => a.player.name = p)).length + pc p ≤ mp := by
  intro l
  induction l with
  | nil =>
    intro pc gc h
    simpa [diversifyAux] using h
  | cons a rest ih =>
    intro pc gc h
    simp only [diversifyAux]
    split_ifs with h1 h2
    · exact ih _ _ h
    · exact ih _ _ h
    · by_cases hp : a.player.name = p
      · rw [List.filter_cons_of_pos (by simp [hp]), List.length_cons]
        have hlt : pc p < mp := by
          rw [← hp]; omega
        have hupd : Function.update pc a.player.name (pc a.player.name + 1) p
            = pc p + 1 := by
          rw [hp] at *
          simp [Function.update]
        have hrec := ih (Function.update pc a.player.name (pc a.player.name + 1))
          (Function.update gc a.game.id (gc a.game.id + 1)) (by rw [hupd]; omega)
        rw [hupd] at hrec
        omega
      · rw [List.filter_cons_of_neg (by simp [hp])]
        have hupd : Function.update pc a.player.name (pc a.player.name + 1) p
            = pc p := Function.update_noteq (fun hc => hp hc.symm) _ _
        have hrec := ih (Function.update pc a.player.name (pc a.player.name + 1))
          (Function.update gc a.game.id (gc a.game.id + 1)) (by rw [hupd]; exact h)
        rw [hupd] at hrec
        exact hrec

/-- Counter invariant for the per-game cap. -/
theorem diversifyAux_game_count (mp mg : Nat) (gid : String) :
    ∀ (l : List PropAnalysis) (pc gc : String → Nat), gc gid ≤ mg →
      ((diversifyAux mp mg l pc gc).filter
          (fun a => a.game.id = gid)).length + gc gid ≤ mg := by
  intro l
  induction l with
  | nil =>
    intro pc gc h
    simpa [diversifyAux] using h
  | cons a rest ih =>
    intro pc gc h
    simp only [diversifyAux]
    split_ifs with h1 h2
    · exact ih _ _ h
    · exact ih _ _ h
    · by_cases hg : a.game.id = gid
      · rw [List.filter_cons_of_pos (by simp [hg]), List.length_cons]
        have hlt : gc gid < mg := by
          rw [← hg]; omega
        have hupd : Function.update gc a.game.id (gc a.game.id + 1) gid
            = gc gid + 1 := by
          rw [hg] at *
          simp [Function.update]
        have hrec := ih (Function.update pc a.player.name (pc a.player.name + 1))
          (Function.update gc a.game.id (gc a.game.id + 1)) (by rw [hupd]; omega)
        rw [hupd] at hrec
        omega
      · rw [List.filter_cons_of_neg (by simp [hg])]
        have hupd : Function.update gc a.game.id (gc a.game.id + 1) gid
            = gc gid := Function.update_noteq (fun hc => hg hc.symm) _ _
        have hrec := ih (Function.update pc a.player.name (pc a.player.name + 1))
          (Function.update gc a.game.id (gc a.game.id + 1)) (by rw [hupd]; exact h)
        rw [hupd] at hrec
        exact hrec

/-- The comparison the source writes as `statistics.stdev(xs) > 7.0`,
stated with a genuine real square root, is the variance comparison the
embedding uses. -/
theorem seven_lt_stdev_iff (v : ℚ) : (7 : ℝ) < Real.sqrt (v : ℝ) ↔ 49 < v := by
  rw [Real.lt_sqrt (by norm_num)]
  have h49 : ((7 : ℝ)) ^ 2 = ((49 : ℚ) : ℝ) := by norm_num
  rw [h49, Rat.cast_lt]

/-- The boolean minutes gate returns `false` exactly on the four fatal
conditions, evaluated on the recent window (helper for claim C5). -/
theorem validate_false_iff (a : PropAnalysis) :
    (validateMinutesSecurity defaultSettings a).1 = false ↔
      (a.player_game_logs.length < defaultSettings.min_minutes_last_n ∨
       mean ((a.player_game_logs.take defaultSettings.min_minutes_last_n).map
           (fun g => g.minutes)) < defaultSettings.min_minutes_threshold ∨
       (7 : ℝ) < Real.sqrt
         ((sampleVariance ((a.player_game_logs.take defaultSettings.min_minutes_last_n).map
             (fun g => g.minutes)) : ℚ) : ℝ) ∨
       ∃ g ∈ a.player_game_logs.take defaultSettings.min_minutes_last_n, g.minutes = 0) := by
  unfold validateMinutesSecurity
  by_cases h1 : a.player_game_logs = []
  · rw [if_pos h1]
    simp [h1, defaultSettings]
  · rw [if_neg h1]
    by_cases h2 : a.player_game_logs.length < defaultSettings.min_minutes_last_n
    · rw [if_pos h2]
      simp only [true_iff]
      exact Or.inl h2
    · rw [if_neg h2]
      simp only []
      by_cases h3 : mean ((a.player_game_logs.take defaultSettings.min_minutes_last_n).map
          (fun g => g.minutes)) < defaultSettings.min_minutes_threshold
      · rw [if_pos h3]
        simp only [true_iff]
        exact Or.inr (Or.inl h3)
      · rw [if_neg h3]
        have hlen : ((a.player_game_logs.take defaultSettings.min_minutes_last_n).map
            (fun g => g.minutes)).length = 5 := by
          rw [List.length_map, List.length_take]
          have h5 : defaultSettings.min_minutes_last_n = 5 := rfl
          rw [h5]
          omega
        by_cases h4 : 49 < sampleVariance ((a.player_game_logs.take
            defaultSettings.min_minutes_last_n).map (fun g => g.minutes))
        · rw [if_pos (by rw [hlen]; exact ⟨by norm_num, h4⟩)]
          simp only [true_iff]
          exact Or.inr (Or.inr (Or.inl ((seven_lt_stdev_iff _).mpr h4)))
        · rw [if_neg (by rw [hlen]; intro hc; exact h4 hc.2)]
          by_cases h5 : ∃ g ∈ a.player_game_logs.take defaultSettings.min_minutes_last_n,
              g.minutes = 0
          · rw [if_pos ?hp]
            case hp =>
              obtain ⟨g, hg, hg0⟩ := h5
              have : g ∈ (a.player_game_logs.take defaultSettings.min_minutes_last_n).filter
                  (fun g => g.minutes = 0) :=
                List.mem_filter.mpr ⟨hg, by simp [hg0]⟩
              exact List.length_pos.mpr (List.ne_nil_of_mem this)
            simp only [true_iff]
            exact Or.inr (Or.inr (Or.inr h5))
          · rw [if_neg ?hn]
            case hn =>
              intro hc
              obtain ⟨g, hg⟩ := List.exists_mem_of_length_pos hc
              have hg2 := List.mem_filter.mp hg
              exact h5 ⟨g, hg2.1, by simpa using hg2.2⟩
            simp only [Bool.true_eq_false, false_iff]
            intro hrhs
            rcases hrhs with hA | hB | hC | hD
            · exact h2 hA
            · exact h3 hB
            · exact h4 ((seven_lt_stdev_iff _).mp hC)
            · exact h5 hD

/-! ## The projection-range formula of claim C6, and its correction -/

/-- The projection-range formula exactly as claim C6 states it (windows
5/10/15 for the recent/medium/season averages, and the trailing-10 sample
standard deviation defaulting to 2.0 only when fewer than 2 data points
exist). -/
def claimedProjRangeRel (p : PropBet) (logs : List PlayerGameLog)
    (edges : List Edge) (r : ℚ × ℚ) : Prop :=
  if logs = [] then r = (p.line - 2, p.line + 2)
  else
    let recent := mean (cwValues p.prop_type (logs.take 5))
    let medium := mean (cwValues p.prop_type (logs.take 10))
    let season15 := mean (cwValues p.prop_type (logs.take 15))
    let baseline := recent * 0.5 + medium * 0.3 + season15 * 0.2
    let adj := min (max (edges.foldl
      (fun s e => if e.strength > 0.5 then s + (e.strength - 0.5) * 2 else s)
      0) (-2)) 4
    ∃ s, (if 2 ≤ (getStatValues (logs.take 10) p.prop_type).length
          then 0 ≤ s ∧
            s ^ 2 = sampleVariance (getStatValues (logs.take 10) p.prop_type)
          else s = 2) ∧
      r = (baseline + adj - s, baseline + adj + s)

/-- The projection-range formula as the code actually computes it, corrected
in the two places the counterexample forces: the season term averages the
full history (not a 15-game window), and the 2.0 default also applies
whenever the history has fewer than 5 games. -/
def amendedProjRangeRel (p : PropBet) (logs : List PlayerGameLog)
    (edges : List Edge) (r : ℚ × ℚ) : Prop :=
  if logs = [] then r = (p.line - 2, p.line + 2)
  else
    let recent := mean (cwValues p.prop_type (logs.take 5))
    let medium := mean (cwValues p.prop_type (logs.take 10))
    let season := mean (cwValues p.prop_type logs)
    let baseline := recent * 0.5 + medium * 0.3 + season * 0.2
    let adj := min (max (edges.foldl
      (fun s e => if e.strength > 0.5 then s + (e.strength - 0.5) * 2 else s)
      0) (-2)) 4
    ∃ s, (if 5 ≤ logs.length ∧
            2 ≤ (getStatValues (logs.take 10) p.prop_type).length
          then 0 ≤ s ∧
            s ^ 2 = sampleVariance (getStatValues (logs.take 10) p.prop_type)
          else s = 2) ∧
      r = (baseline + adj - s, baseline + adj + s)

/-- The projection center in closed form (for nonempty history). -/
theorem projectionCenter_eq (p : PropBet) (logs : List PlayerGameLog)
    (edges : List Edge) (hnil : logs ≠ []) :
    projectionCenter p logs edges =
      mean (cwValues p.prop_type (logs.take 5)) * 0.5 +
      mean (cwValues p.prop_type (logs.take 10)) * 0.3 +
      mean (cwValues p.prop_type logs) * 0.2 +
      min (max (edges.foldl
        (fun s e => if e.strength > 0.5 then s + (e.strength - 0.5) * 2 else s)
        0) (-2)) 4 := by
  unfold projectionCenter calculateWeightedAverages
  rw [if_neg hnil]
  dsimp only
  rw [if_neg (by simp [List.take_eq_nil_iff, hnil]),
    if_neg (by simp [List.take_eq_nil_iff, hnil])]

/-- The code's projection range coincides with the amended formula. -/
theorem projRangeRel_iff_amended (p : PropBet) (logs : List PlayerGameLog)
    (edges : List Edge) (r : ℚ × ℚ) :
    projRangeRel p logs edges r ↔ amendedProjRangeRel p logs edges r := by
  unfold projRangeRel amendedProjRangeRel
  by_cases hnil : logs = []
  · rw [if_pos hnil, if_pos hnil]
  · rw [if_neg hnil, if_neg hnil]
    dsimp only
    apply exists_congr
    intro s
    rw [projectionCenter_eq p logs edges hnil]
    have hcond : isProjStd p logs s ↔
        (if 5 ≤ logs.length ∧
            2 ≤ (getStatValues (logs.take 10) p.prop_type).length
         then 0 ≤ s ∧
           s ^ 2 = sampleVariance (getStatValues (logs.take 10) p.prop_type)
         else s = 2) := by
      unfold isProjStd
      by_cases h5 : 5 ≤ logs.length
      · by_cases h2 : 2 ≤ (getStatValues (logs.take 10) p.prop_type).length
        · rw [if_pos h5, if_pos h2, if_pos ⟨h5, h2⟩]
        · rw [if_pos h5, if_neg h2, if_neg (fun hc => h2 hc.2)]
      · rw [if_neg h5, if_neg (fun hc => h5 hc.1)]
    rw [hcond]

/-- A game log with the given points total (30 minutes, other stats zero). -/
def ptsLog (x : ℚ) : PlayerGameLog := { mkLog 30 with points := x }

/-- Three-game history with points 10, 20, 30 (most recent first). -/
def logsA : List PlayerGameLog := [ptsLog 10, ptsLog 20, ptsLog 30]

/-- Sixteen-game history: fifteen 20-point games, then an old 52-point
game. -/
def logsB : List PlayerGameLog :=
  [ptsLog 20, ptsLog 20, ptsLog 20, ptsLog 20, ptsLog 20,
   ptsLog 20, ptsLog 20, ptsLog 20, ptsLog 20, ptsLog 20,
   ptsLog 20, ptsLog 20, ptsLog 20, ptsLog 20, ptsLog 20,
   ptsLog 52]

/-! ## Concrete engine runs -/

/-- An environment with no external data at all. -/
def envRun : EngineEnv :=
  { playerNameToTeam := fun _ => none
    staticPlayerIdByName := fun _ => none
    getPlayerGameLogs := fun _ => []
    getTeamDefensiveStats := fun _ => none
    teamIds := fun _ => none
    getScheduleContext := fun _ _ => none }

/-- An environment that knows the team of player "P One". -/
def envC3 : EngineEnv :=
  { envRun with playerNameToTeam :=
      fun n => if n = "P One" then some "BOS" else none }

/-- An edge affecting only assists, benefiting BOS. -/
def edgeAssists : Edge :=
  { edge_type := "injury", description := "opposing playmaker out",
    affected_stats := ["assists"], strength := 1,
    team_abbr := some "BOS", game_id := some "G1" }

/-- A pts_asts prop for the example player. -/
def propPtsAsts : PropBet :=
  { exPropPoints with prop_type := "pts_asts", line := 30 }

/-- A rebounds prop for the example player. -/
def propRebs : PropBet :=
  { exPropPoints with prop_type := "rebounds", line := 8 }

/-- A prop whose team is still the `"UNK"` placeholder. -/
def propUnk : PropBet := { exPropPoints with team_abbr := "UNK" }

/-- `propUnk` after the engine's in-place team backfill. -/
def propBosFromUnk : PropBet := { propUnk with team_abbr := "BOS" }

/-- The candidate the skeleton produces for `propPtsAsts` and
`edgeAssists`. -/
def candEx : Candidate :=
  { prop := propPtsAsts,
    player := { id := 7, name := "P One", team_id := 0, team_abbr := "BOS",
                position := "" },
    opponent := { id := 0, abbr := "NYK", name := "NYK" },
    game := exGame, edges := [edgeAssists], logs := [], schedule := none }

/-- The analysis arising from `candEx` (no history, so the projection falls
back to `[line − 2, line + 2]`). -/
def anEx : PropAnalysis := analysisOfCandidate candEx 28 32

theorem skeletonRunEq :
    matchSkeleton envRun [edgeAssists] [propPtsAsts] [exGame]
      = ([candEx], [propPtsAsts]) := by rfl

theorem skeletonRebsEq :
    matchSkeleton envRun [edgeAssists] [propRebs] [exGame]
      = ([], [propRebs]) := by rfl

theorem skeletonC3Eq :
    matchSkeleton envC3 [] [propUnk] []
      = ([], [propBosFromUnk]) := by rfl

/-- A complete concrete engine run producing one analysis. -/
theorem matchRunEx :
    matchEdgesToPropsRel envRun [edgeAssists] [propPtsAsts] [exGame]
      ([anEx], [propPtsAsts]) := by
  constructor
  · rw [skeletonRunEq]
    refine List.Forall₂.cons ⟨28, 32, ?_, rfl⟩ List.Forall₂.nil
    unfold projRangeRel
    rw [if_pos (show candEx.logs = [] from rfl)]
    show ((28 : ℚ), (32 : ℚ)) = (candEx.prop.line - 2, candEx.prop.line + 2)
    norm_num [candEx, propPtsAsts, exPropPoints]
  · rw [skeletonRunEq]

/-- A complete concrete engine run in which only the team backfill fires. -/
theorem matchRunC3 :
    matchEdgesToPropsRel envC3 [] [propUnk] [] ([], [propBosFromUnk]) := by
  constructor
  · rw [skeletonC3Eq]
    exact List.Forall₂.nil
  · rw [skeletonC3Eq]

end Nba

/-- C5: the boolean minutes gate `is_secure` returns False exactly when one
of the four fatal conditions holds on the recent window (fewer than the
minimum required recent games, average minutes below the configured floor,
minutes standard deviation above 7.0, or a recent zero-minute game); the
recent minutes `[0, 30, 31, 29, 30]` fail, and `[31, 33, 30, 32, 29]` pass
with no risk notes appended. -/
theorem c5_minutes_gate_false_iff_fatal :
    (∀ a : Nba.PropAnalysis,
        (Nba.validateMinutesSecurity Nba.defaultSettings a).1 = false ↔
          (a.player_game_logs.length < Nba.defaultSettings.min_minutes_last_n ∨
           Nba.mean ((a.player_game_logs.take Nba.defaultSettings.min_minutes_last_n).map
               (fun g => g.minutes)) < Nba.defaultSettings.min_minutes_threshold ∨
           (7 : ℝ) < Real.sqrt
             ((Nba.sampleVariance
                 ((a.player_game_logs.take Nba.defaultSettings.min_minutes_last_n).map
                   (fun g => g.minutes)) : ℚ) : ℝ) ∨
           ∃ g ∈ a.player_game_logs.take Nba.defaultSettings.min_minutes_last_n,
             g.minutes = 0)) ∧
    (Nba.validateMinutesSecurity Nba.defaultSettings
        (Nba.mkMinutesAnalysis [0, 30, 31, 29, 30])).1 = false ∧
    Nba.validateMinutesSecurity Nba.defaultSettings
        (Nba.mkMinutesAnalysis [31, 33, 30, 32, 29]) = (true, []) := by
  refine ⟨Nba.validate_false_iff, ?_, ?_⟩
  · rw [Nba.validate_false_iff]
    refine Or.inr (Or.inr (Or.inr ⟨Nba.mkLog 0, ?_, rfl⟩))
    simp [Nba.mkMinutesAnalysis, Nba.defaultSettings]
  · have hmin : (([31, 33, 30, 32, 29] : List ℚ).min?).getD 0 = 29 := by decide
    norm_num [Nba.validateMinutesSecurity, Nba.mkMinutesAnalysis, Nba.mkLog,
      Nba.mean, Nba.sampleVariance, Nba.defaultSettings, hmin]
    exact List.cons_ne_nil _ _

/-- C10: the continuous minutes-security score returns exactly 0.0 whenever
the analysis has fewer than 3 game logs (not the 0.5 neutral baseline used
for longer histories), and the returned score always lies in [0, 1]. -/
theorem c10_minutes_score_short_history_zero_and_bounded :
    (∀ (st : Nba.Settings) (a : Nba.PropAnalysis),
        a.player_game_logs.length < 3 →
        Nba.calculateMinutesSecurityScore st a = 0) ∧
    (∀ (st : Nba.Settings) (a : Nba.PropAnalysis),
        0 ≤ Nba.calculateMinutesSecurityScore st a ∧
        Nba.calculateMinutesSecurityScore st a ≤ 1) := by
  constructor
  · intro st a h
    unfold Nba.calculateMinutesSecurityScore
    rw [if_pos (Or.inr h)]
  · intro st a
    unfold Nba.calculateMinutesSecurityScore
    split
    · norm_num
    · exact ⟨le_max_left _ _, max_le (by norm_num) (min_le_left _ _)⟩

/-- Witness for C10 at a concrete two-game history. -/
theorem c10_witness :
    Nba.calculateMinutesSecurityScore Nba.defaultSettings
        (Nba.mkMinutesAnalysis [30, 31]) = 0 ∧
    0 ≤ Nba.calculateMinutesSecurityScore Nba.defaultSettings
        (Nba.mkMinutesAnalysis [30, 31]) :=
  ⟨c10_minutes_score_short_history_zero_and_bounded.1 _ _ (by
      simp [Nba.mkMinutesAnalysis]),
   (c10_minutes_score_short_history_zero_and_bounded.2 _ _).1⟩

/-- C2: evaluation at the failing input.  With team paces 115 and 100 (pace
differential 15 ≥ 3.0) the pace-mismatch edge is built with strength
0.3 + 15 × 0.05 = 1.05 > 1, so not every emitted edge has strength in
[0, 1]: the uncapped mismatch formula contradicts the data model's
documented `strength` range of 0.0 to 1.0 and the cap every sibling
strength formula applies. -/
theorem c2_pace_mismatch_strength_exceeds_one :
    ((Nba.findPaceEdges
        (fun i => if i = 2 then some 115 else if i = 3 then some 100 else none)
        [Nba.exGame]).map (fun e => e.strength)) = [0.6, 1.05] ∧
    (1 : ℚ) < 1.05 := by
  constructor
  · norm_num [Nba.findPaceEdges, Nba.exGame, min_def,
      abs_of_nonneg, show ((115 : ℚ) - 100) = 15 by norm_num]
  · norm_num

/-- C7: an injury with usage_rate 28, minutes_per_game 33 and status "out"
yields opponent-benefit edge strength 0.3 + 0.2 + 0.1 + 0.1 = 0.7, under the
cap of 1.0. -/
theorem c7_injury_strength_exact :
    Nba.calculateInjuryEdgeStrength
      { player_id := 11, player_name := "Injured Star", team_abbr := "BOS",
        status := "out", injury_type := "knee",
        usage_rate := 28, minutes_per_game := 33 }
      = 0.3 + 0.2 + 0.1 + 0.1 ∧
    (0.3 + 0.2 + 0.1 + 0.1 : ℚ) = 0.7 ∧ (0.7 : ℚ) < 1 := by
  refine ⟨?_, by norm_num, by norm_num⟩
  norm_num [Nba.calculateInjuryEdgeStrength]

/-- C8: `diversify_picks` is a single greedy pass over the confidence-sorted
input: its output is a subsequence of the input (rank order preserved), no
player exceeds `max_per_player` entries and no game exceeds `max_per_game`
entries in the output, and for three same-player analyses with
`max_per_player = 1` only the top-ranked one survives. -/
theorem c8_diversify_greedy_pass :
    (∀ (l : List Nba.PropAnalysis) (mp mg : Nat),
        (Nba.diversifyPicks l mp mg).Sublist l) ∧
    (∀ (l : List Nba.PropAnalysis) (mp mg : Nat) (p : String),
        ((Nba.diversifyPicks l mp mg).filter
            (fun a => a.player.name = p)).length ≤ mp) ∧
    (∀ (l : List Nba.PropAnalysis) (mp mg : Nat) (gid : String),
        ((Nba.diversifyPicks l mp mg).filter
            (fun a => a.game.id = gid)).length ≤ mg) ∧
    Nba.diversifyPicks
        [Nba.mkRankedAnalysis "Player A" "G1" 0.9,
         Nba.mkRankedAnalysis "Player A" "G1" 0.8,
         Nba.mkRankedAnalysis "Player A" "G1" 0.7] 1 2
      = [Nba.mkRankedAnalysis "Player A" "G1" 0.9] := by
  refine ⟨?_, ?_, ?_, ?_⟩
  · intro l mp mg
    exact Nba.diversifyAux_sublist mp mg l _ _
  · intro l mp mg p
    simpa using Nba.diversifyAux_player_count mp mg p l (fun _ => 0) (fun _ => 0)
      (Nat.zero_le mp)
  · intro l mp mg gid
    simpa using Nba.diversifyAux_game_count mp mg gid l (fun _ => 0) (fun _ => 0)
      (Nat.zero_le mg)
  · rfl

/-- C9: in the pipeline, diversification runs on the full ranked list before
the final truncation to the configured pick count (so capped-out entries are
backfilled by the next-ranked analysis), and every analysis in the final
pick list has confidence at or above the 0.4 quality floor. -/
theorem c9_selection_floor_and_order :
    (∀ (st : Nba.Settings) (ranked : List Nba.PropAnalysis),
        Nba.runSelection st ranked =
          ((Nba.diversifyPicks ranked 1 2).filter
              (fun a => a.confidence_score ≥ 0.4)).take st.max_picks) ∧
    (∀ (st : Nba.Settings) (ranked : List Nba.PropAnalysis)
        (a : Nba.PropAnalysis), a ∈ Nba.runSelection st ranked →
        (0.4 : ℚ) ≤ a.confidence_score) := by
  constructor
  · intro st ranked
    rfl
  · intro st ranked a ha
    have h1 : a ∈ ((Nba.diversifyPicks ranked 1 2).filter
        (fun a => a.confidence_score ≥ 0.4)).take st.max_picks := ha
    have h2 := List.mem_of_mem_take h1
    have h3 := List.of_mem_filter h2
    simpa using h3

/-- Witness for C9: a concrete ranked list whose single entry survives
selection and indeed clears the floor. -/
theorem c9_witness :
    (0.4 : ℚ) ≤ (Nba.mkRankedAnalysis "Player A" "G1" 0.5).confidence_score :=
  c9_selection_floor_and_order.2 Nba.defaultSettings
    [Nba.mkRankedAnalysis "Player A" "G1" 0.5]
    (Nba.mkRankedAnalysis "Player A" "G1" 0.5)
    (by norm_num [Nba.runSelection, Nba.selectTopPicks, Nba.diversifyPicks,
      Nba.diversifyAux, Nba.mkRankedAnalysis, Nba.defaultSettings])

/-- C1: for every PropAnalysis built by the matchup engine, the direction is
a pure function of the projected midpoint versus the prop's line: "over" iff
(projected_low + projected_high)/2 > line, and "under" otherwise, including
when the midpoint equals the line. -/
theorem c1_direction_pure_function_of_midpoint :
    ∀ (env : Nba.EngineEnv) (edges : List Nba.Edge) (props : List Nba.PropBet)
      (games : List Nba.Game) (res : List Nba.PropAnalysis × List Nba.PropBet)
      (a : Nba.PropAnalysis),
      Nba.matchEdgesToPropsRel env edges props games res → a ∈ res.1 →
      ((a.direction = "over" ↔
          a.prop.line < (a.projected_low + a.projected_high) / 2) ∧
       (a.direction = "under" ↔
          ¬ a.prop.line < (a.projected_low + a.projected_high) / 2)) := by
  intro env edges props games res a hrel ha
  obtain ⟨c, _, lo, hi, _, rfl⟩ := Nba.forallTwo_mem_right hrel.1 ha
  simp only [Nba.analysisOfCandidate, Nba.determineDirection, gt_iff_lt]
  by_cases h : c.prop.line < (lo + hi) / 2
  · rw [if_pos h]
    refine ⟨⟨fun _ => h, fun _ => rfl⟩, ?_, ?_⟩
    · intro heq
      exact absurd heq (by decide)
    · intro hn
      exact absurd h hn
  · rw [if_neg h]
    refine ⟨⟨?_, ?_⟩, fun _ => h, fun _ => rfl⟩
    · intro heq
      exact absurd heq (by decide)
    · intro hlt
      exact absurd hlt h

/-- Witness for C1: on the concrete run the projected midpoint equals the
line, so the direction is "under". -/
theorem c1_witness :
    Nba.anEx.direction = "under" ∧
    ¬ Nba.anEx.prop.line <
        (Nba.anEx.projected_low + Nba.anEx.projected_high) / 2 := by
  have h := c1_direction_pure_function_of_midpoint Nba.envRun [Nba.edgeAssists]
    [Nba.propPtsAsts] [Nba.exGame] ([Nba.anEx], [Nba.propPtsAsts]) Nba.anEx
    Nba.matchRunEx (by simp)
  have hmid : ¬ Nba.anEx.prop.line <
      (Nba.anEx.projected_low + Nba.anEx.projected_high) / 2 := by
    norm_num [Nba.anEx, Nba.analysisOfCandidate, Nba.candEx, Nba.propPtsAsts,
      Nba.exPropPoints]
  exact ⟨h.2.mpr hmid, hmid⟩

/-- C3 counterexample: the matchup engine does mutate upstream state.  On a
call whose only prop carries the `"UNK"` team placeholder, the prop's
`team_abbr` is rewritten in place by the league-lookup backfill
(matchup_engine.py:70-71), so the input prop is not unchanged after the
call. -/
theorem c3_counterexample_prop_mutated :
    Nba.matchEdgesToPropsRel Nba.envC3 [] [Nba.propUnk] []
      ([], [Nba.propBosFromUnk]) ∧
    Nba.propBosFromUnk ≠ Nba.propUnk := by
  refine ⟨Nba.matchRunC3, ?_⟩
  intro h
  have hteam := congrArg Nba.PropBet.team_abbr h
  simp [Nba.propBosFromUnk, Nba.propUnk, Nba.exPropPoints] at hteam

/-- C3 (amended): the engine leaves the input edges untouched, and the only
in-place changes to the input props are the `"UNK"` team backfill and the
falsy player-id cache; every other prop field survives the call unchanged. -/
theorem c3_amended_props_only_backfilled :
    ∀ (env : Nba.EngineEnv) (edges : List Nba.Edge) (props : List Nba.PropBet)
      (games : List Nba.Game) (res : List Nba.PropAnalysis × List Nba.PropBet),
      Nba.matchEdgesToPropsRel env edges props games res →
      List.Forall₂ Nba.propEvolved props res.2 := by
  intro env edges props games res hrel
  rw [hrel.2]
  exact Nba.matchSkeleton_evolves env edges props games

/-- Witness for C3 (amended) on the concrete backfill run. -/
theorem c3_witness :
    List.Forall₂ Nba.propEvolved [Nba.propUnk] [Nba.propBosFromUnk] :=
  c3_amended_props_only_backfilled Nba.envC3 [] [Nba.propUnk] []
    ([], [Nba.propBosFromUnk]) Nba.matchRunC3

/-- C4: a PropAnalysis is produced for a prop iff some edge of the
benefiting team's edge list matches the prop's category under the
compound-category expansion (a compound category is satisfied by an edge
affecting any component simple category); every produced analysis carries a
nonempty matching edge list; an edge affecting only assists matches a
pts_asts prop end-to-end, and produces nothing for a rebounds prop. -/
theorem c4_analysis_iff_category_match :
    (∀ (p : Nba.PropBet) (es : List Nba.Edge),
        Nba.findEdgesForProp p es ≠ [] ↔
          ∃ e ∈ es, Nba.specCategoryMatch p.prop_type e.affected_stats) ∧
    (∀ (env : Nba.EngineEnv) (edges : List Nba.Edge)
        (props : List Nba.PropBet) (games : List Nba.Game)
        (res : List Nba.PropAnalysis × List Nba.PropBet)
        (a : Nba.PropAnalysis),
        Nba.matchEdgesToPropsRel env edges props games res → a ∈ res.1 →
        a.edges ≠ [] ∧
        ∀ e ∈ a.edges,
          Nba.specCategoryMatch a.prop.prop_type e.affected_stats) ∧
    (Nba.specCategoryMatch "pts_asts" ["assists"] ∧
     ¬ Nba.specCategoryMatch "rebounds" ["assists"]) ∧
    Nba.matchEdgesToPropsRel Nba.envRun [Nba.edgeAssists] [Nba.propPtsAsts]
      [Nba.exGame] ([Nba.anEx], [Nba.propPtsAsts]) ∧
    (∀ res, Nba.matchEdgesToPropsRel Nba.envRun [Nba.edgeAssists]
      [Nba.propRebs] [Nba.exGame] res → res.1 = []) := by
  refine ⟨fun p es => Nba.findEdges_ne_nil_iff p es, ?_, ⟨?_, ?_⟩,
    Nba.matchRunEx, ?_⟩
  · intro env edges props games res a hrel ha
    obtain ⟨c, hcmem, lo, hi, _, rfl⟩ := Nba.forallTwo_mem_right hrel.1 ha
    have hsound := Nba.matchSkeleton_sound env edges props games c hcmem
    simp only [Nba.analysisOfCandidate]
    exact ⟨hsound.1, hsound.2⟩
  · simp [Nba.specCategoryMatch, Nba.componentCategories]
  · simp [Nba.specCategoryMatch, Nba.componentCategories]
  · intro res hrel
    have h1 := hrel.1
    rw [Nba.skeletonRebsEq] at h1
    exact List.forall₂_nil_left_iff.mp h1

/-- Witness for C4 on the concrete pts_asts run. -/
theorem c4_witness :
    Nba.anEx.edges ≠ [] ∧
    ∀ e ∈ Nba.anEx.edges,
      Nba.specCategoryMatch Nba.anEx.prop.prop_type e.affected_stats :=
  c4_analysis_iff_category_match.2.1 Nba.envRun [Nba.edgeAssists]
    [Nba.propPtsAsts] [Nba.exGame] ([Nba.anEx], [Nba.propPtsAsts]) Nba.anEx
    Nba.matchRunEx (by simp)

/-- C6 counterexample: the code's projection range differs from the claimed
formula.  On a 3-game history (points 10, 20, 30, no edges, here with at
least 2 data points and a trailing-10 standard deviation of 10) the code
returns the default-2.0 range (18, 22) while the claimed formula forces
(10, 30); on a 16-game history the code's season term averages all 16 games
while the claimed 15-game window forces a different center. -/
theorem c6_counterexample_std_and_season :
    Nba.projRangeRel Nba.exPropPoints Nba.logsA [] (18, 22) ∧
    ¬ Nba.claimedProjRangeRel Nba.exPropPoints Nba.logsA [] (18, 22) ∧
    Nba.projRangeRel Nba.exPropPoints Nba.logsB [] (102/5, 102/5) ∧
    ¬ Nba.claimedProjRangeRel Nba.exPropPoints Nba.logsB [] (102/5, 102/5) := by
  refine ⟨?_, ?_, ?_, ?_⟩
  · unfold Nba.projRangeRel
    rw [if_neg (by simp [Nba.logsA])]
    refine ⟨2, ?_, ?_⟩
    · unfold Nba.isProjStd
      rw [if_neg (by norm_num [Nba.logsA])]
    · rw [Nba.projectionCenter_eq _ _ _ (by simp [Nba.logsA])]
      norm_num [Nba.logsA, Nba.ptsLog, Nba.mkLog, Nba.cwValues, Nba.mean,
        Nba.exPropPoints]
  · intro hcl
    unfold Nba.claimedProjRangeRel at hcl
    rw [if_neg (by simp [Nba.logsA])] at hcl
    dsimp only at hcl
    obtain ⟨s, hs, heq⟩ := hcl
    rw [if_pos (by norm_num [Nba.logsA, Nba.ptsLog, Nba.mkLog,
      Nba.getStatValues, Nba.exPropPoints, List.filterMap_cons,
      List.filterMap_nil])] at hs
    have hvar : Nba.sampleVariance
        (Nba.getStatValues (Nba.logsA.take 10) Nba.exPropPoints.prop_type)
        = 100 := by
      norm_num [Nba.logsA, Nba.ptsLog, Nba.mkLog, Nba.getStatValues,
        Nba.exPropPoints, Nba.sampleVariance, Nba.mean, List.filterMap_cons,
        List.filterMap_nil]
    rw [hvar] at hs
    have h1 := congrArg Prod.fst heq
    have h2 := congrArg Prod.snd heq
    dsimp only at h1 h2
    have hs2 : s = 2 := by linarith
    rw [hs2] at hs
    norm_num at hs
  · unfold Nba.projRangeRel
    rw [if_neg (by simp [Nba.logsB])]
    refine ⟨0, ?_, ?_⟩
    · unfold Nba.isProjStd
      rw [if_pos (by norm_num [Nba.logsB]),
        if_pos (by norm_num [Nba.logsB, Nba.ptsLog, Nba.mkLog,
          Nba.getStatValues, Nba.exPropPoints, List.filterMap_cons,
          List.filterMap_nil])]
      constructor
      · norm_num
      · norm_num [Nba.logsB, Nba.ptsLog, Nba.mkLog, Nba.getStatValues,
          Nba.exPropPoints, Nba.sampleVariance, Nba.mean, List.filterMap_cons,
          List.filterMap_nil]
    · rw [Nba.projectionCenter_eq _ _ _ (by simp [Nba.logsB])]
      norm_num [Nba.logsB, Nba.ptsLog, Nba.mkLog, Nba.cwValues, Nba.mean,
        Nba.exPropPoints]
  · intro hcl
    unfold Nba.claimedProjRangeRel at hcl
    rw [if_neg (by simp [Nba.logsB])] at hcl
    dsimp only at hcl
    obtain ⟨s, hs, heq⟩ := hcl
    have h1 := congrArg Prod.fst heq
    have h2 := congrArg Prod.snd heq
    dsimp only at h1 h2
    have hbase : Nba.mean (Nba.cwValues Nba.exPropPoints.prop_type
          (Nba.logsB.take 5)) * 0.5 +
        Nba.mean (Nba.cwValues Nba.exPropPoints.prop_type
          (Nba.logsB.take 10)) * 0.3 +
        Nba.mean (Nba.cwValues Nba.exPropPoints.prop_type
          (Nba.logsB.take 15)) * 0.2 = 20 := by
      norm_num [Nba.logsB, Nba.ptsLog, Nba.mkLog, Nba.cwValues, Nba.mean,
        Nba.exPropPoints]
    rw [hbase] at h1 h2
    norm_num at h1 h2
    linarith

/-- C6 (amended): the projection range is the weighted 0.5/0.3/0.2 baseline
of the 5-game, 10-game and full-history averages plus the edge adjustment
(sum of (strength − 0.5) × 2 over edges with strength > 0.5, clamped to
[−2, 4]), spread symmetrically by the trailing-10 sample standard deviation
when at least 5 games and at least 2 data points exist and by the default
2.0 otherwise, with the [line − 2, line + 2] fallback when no history
exists. -/
theorem c6_amended_projection_range :
    ∀ (p : Nba.PropBet) (logs : List Nba.PlayerGameLog)
      (edges : List Nba.Edge) (r : ℚ × ℚ),
      Nba.projRangeRel p logs edges r ↔
        Nba.amendedProjRangeRel p logs edges r :=
  Nba.projRangeRel_iff_amended
